import Mathlib

/-!
Shallow embedding of the DataGrid spreadsheet-viewer core
(src/components/DataGrid.tsx and the host application in src/unnamed/part_001)
together with proofs about its viewport windowing, diff classification,
cell editing, column resizing, keyboard navigation and state reset logic.

Scalar cell values (JS string | number | boolean | null) are modelled by
an inductive type; JS object rows are association lists; pixel quantities
are rationals; JS array indices in the grid state are integers, so that
the Math.max / Math.min clamping in the source translates literally.
-/

/-- A scalar cell value: JS string, number, boolean or null.
Numbers are modelled as integers, which is exact for the string
conversions this program performs on them. -/
inductive Value where
  | str (s : String)
  | num (n : Int)
  | bool (b : Bool)
  | null
deriving Repr, DecidableEq

/-- A row: a JS object mapping column names to values, as an association
list; a missing key is JS undefined (lookup returns none). -/
abbrev Row := List (String × Value)

/-- JS property access row[c]: first binding wins, an absent key is undefined. -/
def Row.getVal (row : Row) (c : String) : Option Value :=
  (List.find? (fun p => p.1 == c) row).map Prod.snd

/-- The Sheet record from src/unnamed/part_000: id, name, data, columns, type. -/
structure Sheet where
  id : String
  name : String
  data : List Row
  columns : List String
  type : String
deriving Repr, DecidableEq

/-- JS String(v) on a defined scalar value; note String(null) is "null". -/
def jsString : Value → String
  | Value.str s => s
  | Value.num n => toString n
  | Value.bool b => if b then "true" else "false"
  | Value.null => "null"

/-- JS String(v) on a possibly-undefined value; String(undefined) is "undefined". -/
def jsStringOpt : Option Value → String
  | none => "undefined"
  | some v => jsString v

/-- The display / draft text of a cell:
val !== null && val !== undefined ? String(val) : two quotes. -/
def jsDisplay : Option Value → String
  | none => ""
  | some Value.null => ""
  | some v => jsString v

/-- JS array access arr[i] with a possibly negative index. -/
def jsIndex {α : Type} (l : List α) (i : ℤ) : Option α :=
  if i < 0 then none else l[i.toNat]?

/-- JS Array.prototype.indexOf on an array of strings: index of the first
occurrence, or -1 when absent. -/
def jsIndexOfStr : List String → String → ℤ
  | [], _ => -1
  | a :: rest, s =>
    if a = s then 0
    else if jsIndexOfStr rest s = -1 then -1 else jsIndexOfStr rest s + 1

/-- sheet.columns.indexOf(editingCell.col): an undefined key is never found. -/
def jsIndexOf (l : List String) (x : Option String) : ℤ :=
  match x with
  | none => -1
  | some s => jsIndexOfStr l s

/-! ## Viewport Windower (DataGrid.tsx lines 91-106 and 483-501) -/

/-- rowHeight = ROW_HEIGHT_BASE * (zoomLevel / 100), with ROW_HEIGHT_BASE = 36. -/
def rowHeightOf (zoomLevel : ℚ) : ℚ := 36 * (zoomLevel / 100)

/-- startIndex = Math.max(0, Math.floor(scrollTop / rowHeight) - buffer),
with buffer = 10. -/
def startIndexOf (scrollTop rowHeight : ℚ) : ℤ :=
  max 0 (⌊scrollTop / rowHeight⌋ - 10)

/-- endIndex = Math.min(totalRows,
Math.ceil((scrollTop + containerHeight) / rowHeight) + buffer), buffer = 10. -/
def endIndexOf (scrollTop containerHeight rowHeight : ℚ) (totalRows : ℕ) : ℤ :=
  min (totalRows : ℤ) (⌈(scrollTop + containerHeight) / rowHeight⌉ + 10)

/-- topSpacerHeight = startIndex * rowHeight. -/
def topSpacerHeightOf (scrollTop rowHeight : ℚ) : ℚ :=
  (startIndexOf scrollTop rowHeight : ℚ) * rowHeight

/-- bottomSpacerHeight = (totalRows - endIndex) * rowHeight. -/
def bottomSpacerHeightOf (scrollTop containerHeight rowHeight : ℚ) (totalRows : ℕ) : ℚ :=
  ((totalRows : ℚ) - (endIndexOf scrollTop containerHeight rowHeight totalRows : ℚ)) * rowHeight

/-! ## Diff Engine (DataGrid.tsx lines 504-522, same comparison at 332-338) -/

/-- The per-cell diff classification used for rendering. -/
inductive DiffClass where
  | newRow
  | changed
  | unchanged
deriving Repr, DecidableEq

/-- String(compareRow[colName] ?? emptyString): null and undefined on the
comparison side coalesce to the empty string before conversion. -/
def cmpString : Option Value → String
  | none => ""
  | some Value.null => ""
  | some v => jsString v

/-- getCellClass(rowIdx, colName, val): none when there is no comparison
sheet (the code returns an empty class string), otherwise the classification
against the comparison row at the same index. -/
def getCellClass (compareSheet : Option Sheet) (rowIdx : ℕ) (colName : String)
    (val : Option Value) : Option DiffClass :=
  match compareSheet with
  | none => none
  | some cs =>
    match cs.data[rowIdx]? with
    | none => some DiffClass.newRow
    | some compareRow =>
      if jsStringOpt val ≠ cmpString (compareRow.getVal colName) then some DiffClass.changed
      else some DiffClass.unchanged

/-! ## Grid component state -/

/-- Selection state: row index and index of the column in sheet.columns. -/
structure Sel where
  row : ℤ
  colIdx : ℤ
deriving Repr, DecidableEq

/-- Editing state: row index and column name; the column is an Option
because sheet.columns[colIdx] is undefined when colIdx is out of range. -/
structure EditCell where
  row : ℤ
  col : Option String
deriving Repr, DecidableEq

/-- The private render-local state of the DataGrid component. -/
structure GridState where
  colWidths : List (String × ℚ)
  editingCell : Option EditCell
  editValue : String
  selectedCell : Option Sel
  scrollTop : ℚ
deriving Repr, DecidableEq

/-- An invocation of the outbound onCellEdit callback:
(rowIndex, colKey, value). -/
abbrev Emit := ℤ × Option String × String

/-- Lookup of colWidths[c] on the assoc-list model of the width object. -/
def lookupWidth (ws : List (String × ℚ)) (c : String) : Option ℚ :=
  (List.find? (fun p => p.1 == c) ws).map Prod.snd

/-- Assignment newWidths[col] = w on the assoc-list model of a JS object. -/
def setWidth (ws : List (String × ℚ)) (c : String) (w : ℚ) : List (String × ℚ) :=
  (c, w) :: List.filter (fun p => !(p.1 == c)) ws

/-! ## Column Layout Manager -/

/-- One interactive resize step, from handleMouseMove (DataGrid.tsx lines
121-139): finalWidth = Math.max(50, startWidth + adjustedDiff) where
adjustedDiff = (startX - e.clientX) * (100 / zoomLevel); deltaPixels is
the screen-pixel drag distance startX - e.clientX. -/
def resizeColumn (zoomLevel startWidth deltaPixels : ℚ) : ℚ :=
  max 50 (startWidth + deltaPixels * (100 / zoomLevel))

/-- Measured width for one column in performAutoSize (DataGrid.tsx lines
67-78): the header width (measure col + 40) maximised with the measured
width (+ 24) of the displayed value over the first min(length, 500) rows. -/
def measureCol (measure : String → ℚ) (sheet : Sheet) (col : String) : ℚ :=
  let headerW := measure col + 40
  let sample := sheet.data.take (min sheet.data.length 500)
  sample.foldl
    (fun mw row =>
      let w := measure (jsDisplay (row.getVal col)) + 24
      if w > mw then w else mw)
    headerW

/-- performAutoSize (DataGrid.tsx lines 58-84). The canvas text-measurement
context is the injected capability: none models getContext failing, in
which case the function returns immediately. Otherwise each resized column
gets min(max(measured, 60), 800). -/
def performAutoSize (measureCtx : Option (String → ℚ)) (sheet : Sheet)
    (specificCol : Option String) (s : GridState) : GridState :=
  match measureCtx with
  | none => s
  | some measure =>
    let columnsToResize := match specificCol with
      | some c => [c]
      | none => sheet.columns
    let newWidths := columnsToResize.foldl
      (fun ws col => setWidth ws col (min (max (measureCol measure sheet col) 60) 800))
      s.colWidths
    { s with colWidths := newWidths }

/-! ## Reset on sheet identity change (DataGrid.tsx lines 36-43 and 423-428) -/

/-- The effect run when sheet.id / sheet.columns change: fresh width map
with every column of the new sheet at 150, edit and selection cleared,
scroll reset. -/
def resetForSheet (sheet : Sheet) (s : GridState) : GridState :=
  { s with
      colWidths := sheet.columns.map (fun c => (c, (150 : ℚ))),
      editingCell := none,
      selectedCell := none,
      scrollTop := 0 }

/-! ## Cell Edit Controller -/

/-- startEditing (DataGrid.tsx lines 240-243): opens an edit session with
the draft initialised to the displayed text of the current value. -/
def startEditing (s : GridState) (rowIdx : ℤ) (col : Option String)
    (val : Option Value) : GridState :=
  { s with editingCell := some ⟨rowIdx, col⟩, editValue := jsDisplay val }

/-- saveEdit (DataGrid.tsx lines 245-255): if editing, invoke onCellEdit
with the row, column and draft, clear the edit session, and re-select the
edited cell when its column is still present. The second component lists
the callback invocations this step performs. -/
def saveEdit (sheet : Sheet) (s : GridState) : GridState × List Emit :=
  match s.editingCell with
  | none => (s, [])
  | some ec =>
    let colIdx := jsIndexOf sheet.columns ec.col
    let s1 := { s with editingCell := none }
    let s2 := if colIdx = -1 then s1 else { s1 with selectedCell := some ⟨ec.row, colIdx⟩ }
    (s2, [(ec.row, ec.col, s.editValue)])

/-- sheet.data[row][col] as read when entering edit mode. -/
def cellValue (sheet : Sheet) (row : ℤ) (col : Option String) : Option Value :=
  match jsIndex sheet.data row, col with
  | some r, some c => r.getVal c
  | _, _ => none

/-! ## Selection and Navigation (DataGrid.tsx lines 178-238) -/

/-- The Shift+Tab branch of handleKeyDown (lines 207-212): move one column
back, clamped at 0; if the new column index is 0 and the row is positive,
jump to the last column of the previous row. -/
def shiftTabMove (nCols : ℤ) (sel : Sel) : Sel :=
  let newColIdx := max 0 (sel.colIdx - 1)
  if newColIdx = 0 ∧ sel.row > 0 then ⟨sel.row - 1, nCols - 1⟩
  else ⟨sel.row, newColIdx⟩

/-- The Tab branch (lines 213-218): the column advances clamped to the last
column; the row is never changed. -/
def tabMove (nCols : ℤ) (sel : Sel) : Sel :=
  ⟨sel.row, min (nCols - 1) (sel.colIdx + 1)⟩

/-- The keys handleKeyDown distinguishes. -/
inductive Key where
  | arrowUp
  | arrowDown
  | arrowLeft
  | arrowRight
  | tab (shift : Bool)
  | enter
  | escape
  | other
deriving Repr, DecidableEq

/-- handleKeyDown (DataGrid.tsx lines 178-233). While editing, Enter
commits and Escape cancels; otherwise, with a selection, arrows and Tab
move it (ArrowRight decrements and ArrowLeft increments the column index,
the right-to-left mapping of the source) and Enter starts editing the
selected cell. -/
def handleKeyDown (sheet : Sheet) (k : Key) (s : GridState) : GridState × List Emit :=
  match s.editingCell with
  | some _ =>
    match k with
    | Key.enter => saveEdit sheet s
    | Key.escape => ({ s with editingCell := none }, [])
    | _ => (s, [])
  | none =>
    match s.selectedCell with
    | none => (s, [])
    | some sel =>
      match k with
      | Key.arrowUp =>
        ({ s with selectedCell := some ⟨max 0 (sel.row - 1), sel.colIdx⟩ }, [])
      | Key.arrowDown =>
        ({ s with selectedCell := some ⟨min ((sheet.data.length : ℤ) - 1) (sel.row + 1), sel.colIdx⟩ }, [])
      | Key.arrowRight =>
        ({ s with selectedCell := some ⟨sel.row, max 0 (sel.colIdx - 1)⟩ }, [])
      | Key.arrowLeft =>
        ({ s with selectedCell := some ⟨sel.row, min ((sheet.columns.length : ℤ) - 1) (sel.colIdx + 1)⟩ }, [])
      | Key.tab true =>
        ({ s with selectedCell := some (shiftTabMove (sheet.columns.length : ℤ) sel) }, [])
      | Key.tab false =>
        ({ s with selectedCell := some (tabMove (sheet.columns.length : ℤ) sel) }, [])
      | Key.enter =>
        let col := jsIndex sheet.columns sel.colIdx
        (startEditing s sel.row col (cellValue sheet sel.row col), [])
      | _ => (s, [])

/-- The discrete input events the grid processes. -/
inductive GridEvent where
  | key (k : Key)
  | click (row colIdx : ℤ)
  | dblclick (row : ℤ) (col : String)
  | blurInput
  | inputChange (text : String)
deriving Repr, DecidableEq

/-- One event-dispatch step of the grid: keyboard events go to
handleKeyDown, a cell click selects that cell (handleCellClick, lines
236-238), a double click starts editing it, blur of the edit input commits
(saveEdit), and typing updates the draft only. -/
def stepGrid (sheet : Sheet) (e : GridEvent) (s : GridState) : GridState × List Emit :=
  match e with
  | GridEvent.key k => handleKeyDown sheet k s
  | GridEvent.click r c => ({ s with selectedCell := some ⟨r, c⟩ }, [])
  | GridEvent.dblclick r c => (startEditing s r (some c) (cellValue sheet r (some c)), [])
  | GridEvent.blurInput => saveEdit sheet s
  | GridEvent.inputChange t => ({ s with editValue := t }, [])

/-- A selection, when present, is inside the bounds of the sheet. -/
def selStateOK (sheet : Sheet) : Option Sel → Bool
  | none => true
  | some sel =>
    decide (0 ≤ sel.row) && decide (sel.row < (sheet.data.length : ℤ)) &&
    decide (0 ≤ sel.colIdx) && decide (sel.colIdx < (sheet.columns.length : ℤ))

/-- An edit session, when present, targets a row inside the sheet. -/
def editStateOK (sheet : Sheet) : Option EditCell → Bool
  | none => true
  | some ec => decide (0 ≤ ec.row) && decide (ec.row < (sheet.data.length : ℤ))

/-- The in-bounds invariant on the grid state. -/
def inBounds (sheet : Sheet) (s : GridState) : Bool :=
  selStateOK sheet s.selectedCell && editStateOK sheet s.editingCell

/-- Well-formedness of an input event: pointer events carry the coordinates
of a rendered cell, so their indices are in range. -/
def eventWF (sheet : Sheet) : GridEvent → Bool
  | GridEvent.click r c =>
    decide (0 ≤ r) && decide (r < (sheet.data.length : ℤ)) &&
    decide (0 ≤ c) && decide (c < (sheet.columns.length : ℤ))
  | GridEvent.dblclick r _ => decide (0 ≤ r) && decide (r < (sheet.data.length : ℤ))
  | _ => true

/-! ## Host edit handler (src/unnamed/part_001 lines 128-142 and 560-571) -/

/-- Object update (spread then override): every other key keeps its value,
colKey now maps to value. -/
def setCellInRow (row : Row) (c : String) (v : Value) : Row :=
  List.filter (fun p => !(p.1 == c)) row ++ [(c, v)]

/-- newData = [...sheet.data]; newData[rowIndex] = spread-update of
newData[rowIndex]. An out-of-range index extends the array as JS
assignment does, the skipped slots being holes; a hole reads as undefined
for every column, exactly like the empty row used to model it. -/
def updateRowAt (data : List Row) (i : ℕ) (c : String) (v : Value) : List Row :=
  if i < data.length then
    data.set i (setCellInRow ((data[i]?).getD []) c v)
  else
    data ++ List.replicate (i - data.length) [] ++ [setCellInRow [] c v]

/-- handleCellEdit of the host App: replace the cell (rowIndex, colKey) of
the sheet whose id is the active id with the committed text; all other
sheets are returned unchanged. -/
def handleCellEdit (activeSheetId : Option String) (sheets : List Sheet)
    (rowIndex : ℕ) (colKey : String) (value : String) : List Sheet :=
  match activeSheetId with
  | none => sheets
  | some aid =>
    sheets.map (fun sheet =>
      if sheet.id = aid then
        { sheet with data := updateRowAt sheet.data rowIndex colKey (Value.str value) }
      else sheet)

/-! ## Concrete fixtures used by the witness theorems -/

/-- A small three-column, two-row sheet. -/
def sheetA : Sheet :=
  { id := "s1"
    name := "a.csv"
    data :=
      [[("A", Value.str "1"), ("B", Value.str "2"), ("C", Value.str "3")],
       [("A", Value.str "4"), ("B", Value.str "5"), ("C", Value.str "6")]]
    columns := ["A", "B", "C"]
    type := "csv" }

/-- A comparison sheet whose single row holds a null in column A. -/
def sheetNull : Sheet :=
  { id := "s2"
    name := "b.csv"
    data := [[("A", Value.null)]]
    columns := ["A"]
    type := "csv" }

/-- A grid state amid an edit session on cell (0, column A) with draft 42. -/
def stEditing : GridState :=
  { colWidths := [("A", 150), ("B", 150), ("C", 150)]
    editingCell := some ⟨0, some "A"⟩
    editValue := "42"
    selectedCell := some ⟨0, 0⟩
    scrollTop := 0 }

/-- A grid state with cell (0, 0) selected and no edit session. -/
def stSelected : GridState :=
  { colWidths := [("A", 150), ("B", 150), ("C", 150)]
    editingCell := none
    editValue := ""
    selectedCell := some ⟨0, 0⟩
    scrollTop := 0 }

/-! ## Helper lemmas -/

/-- A non-failing indexOf result is a valid index into the array. -/
theorem jsIndexOfStr_bounds (l : List String) (s : String) :
    jsIndexOfStr l s = -1 ∨
      (0 ≤ jsIndexOfStr l s ∧ jsIndexOfStr l s < (l.length : ℤ)) := by
  induction l with
  | nil => exact Or.inl rfl
  | cons a rest ih =>
    unfold jsIndexOfStr
    by_cases h : a = s
    · right
      rw [if_pos h]
      constructor
      · exact le_refl 0
      · rw [List.length_cons]
        push_cast
        omega
    · rw [if_neg h]
      rcases ih with h1 | ⟨h2, h3⟩
      · left
        rw [if_pos h1]
      · right
        rw [if_neg (by omega), List.length_cons]
        push_cast
        omega

/-- Width lookup after filling a fresh width object with a constant. -/
theorem lookupWidth_map_const (cols : List String) (w : ℚ) (c : String) :
    lookupWidth (cols.map (fun x => (x, w))) c = if c ∈ cols then some w else none := by
  induction cols with
  | nil => rfl
  | cons a rest ih =>
    unfold lookupWidth at ih ⊢
    by_cases h : a = c
    · rw [List.map_cons, List.find?_cons_of_pos _ (by simp [h])]
      simp [h]
    · rw [List.map_cons, List.find?_cons_of_neg _ (by simp [h])]
      rw [ih]
      simp [List.mem_cons, Ne.symm h]

/-! ## C1: viewport windower range and spacer arithmetic -/

/-- C1 counterexample: at totalRows = 5, rowHeight = 36 (zoom 100),
scrollOffset = 720 and viewportHeight = 100 the computed range has
startIndex = 10 and endIndex = 5, so startIndex ≤ endIndex fails and the
claimed chain 0 ≤ startIndex ≤ endIndex ≤ totalRows is false. -/
theorem viewport_range_claim_false :
    ¬ (startIndexOf 720 36 ≤ endIndexOf 720 100 36 5) := by
  have h1 : startIndexOf 720 36 = 10 := by
    unfold startIndexOf
    norm_num
  have h2 : endIndexOf 720 100 36 5 = 5 := by
    unfold endIndexOf
    have hc : (⌈((720 : ℚ) + 100) / 36⌉ : ℤ) = 23 := by
      rw [Int.ceil_eq_iff]
      constructor <;> norm_num
    rw [hc]
    decide
  rw [h1, h2]
  decide

/-- C1 (amended): with a positive row height, nonnegative viewport height,
and a scroll offset between 0 and the total content height
totalRows * rowHeight, the range satisfies
0 ≤ startIndex ≤ endIndex ≤ totalRows, and the top spacer, the
materialized height (endIndex - startIndex) * rowHeight and the bottom
spacer sum exactly to totalRows * rowHeight; the spacer identity itself
needs none of the hypotheses. -/
theorem viewport_range_ok (scrollTop viewportHeight rowHeight : ℚ) (totalRows : ℕ)
    (hrh : 0 < rowHeight) (hs0 : 0 ≤ scrollTop) (hv : 0 ≤ viewportHeight)
    (hs : scrollTop ≤ (totalRows : ℚ) * rowHeight) :
    0 ≤ startIndexOf scrollTop rowHeight ∧
    startIndexOf scrollTop rowHeight ≤ endIndexOf scrollTop viewportHeight rowHeight totalRows ∧
    endIndexOf scrollTop viewportHeight rowHeight totalRows ≤ (totalRows : ℤ) ∧
    topSpacerHeightOf scrollTop rowHeight +
      ((endIndexOf scrollTop viewportHeight rowHeight totalRows -
        startIndexOf scrollTop rowHeight : ℤ) : ℚ) * rowHeight +
      bottomSpacerHeightOf scrollTop viewportHeight rowHeight totalRows
      = (totalRows : ℚ) * rowHeight := by
  have hdiv : scrollTop / rowHeight ≤ (totalRows : ℚ) := by
    rw [div_le_iff₀ hrh]
    exact hs
  have hf : ⌊scrollTop / rowHeight⌋ ≤ (totalRows : ℤ) := by
    have h := Int.floor_mono hdiv
    rwa [Int.floor_natCast] at h
  have hc0 : (0 : ℤ) ≤ ⌈(scrollTop + viewportHeight) / rowHeight⌉ :=
    Int.ceil_nonneg (by positivity)
  have hfc : ⌊scrollTop / rowHeight⌋ ≤ ⌈(scrollTop + viewportHeight) / rowHeight⌉ := by
    have h1 : scrollTop / rowHeight ≤ (scrollTop + viewportHeight) / rowHeight := by
      gcongr
      linarith
    exact le_trans (Int.floor_mono h1) (Int.floor_le_ceil _)
  refine ⟨le_max_left _ _, ?_, min_le_left _ _, ?_⟩
  · unfold startIndexOf endIndexOf
    omega
  · unfold topSpacerHeightOf bottomSpacerHeightOf
    push_cast
    ring

/-- C1 amended-claim witness at scrollOffset = 72, viewportHeight = 100,
rowHeight = 36, totalRows = 5. -/
theorem viewport_range_ok_witness :
    0 ≤ startIndexOf 72 36 ∧
    startIndexOf 72 36 ≤ endIndexOf 72 100 36 5 ∧
    endIndexOf 72 100 36 5 ≤ (5 : ℤ) ∧
    topSpacerHeightOf 72 36 +
      ((endIndexOf 72 100 36 5 - startIndexOf 72 36 : ℤ) : ℚ) * 36 +
      bottomSpacerHeightOf 72 100 36 5 = (5 : ℚ) * 36 :=
  viewport_range_ok 72 100 36 5 (by norm_num) (by norm_num) (by norm_num) (by norm_num)

/-! ## C2: diff classification -/

/-- C2 counterexample: two nulls at the same position do NOT classify as
unchanged. With a null in column A of both the primary cell and the
comparison row, String(null) is the string null on the primary side while
the comparison null coalesces to the empty string, so the cell is
classified changed, refuting the claim that two identical values
(including two nulls) classify as unchanged. -/
theorem diff_two_nulls_changed :
    getCellClass (some sheetNull) 0 "A" (some Value.null) = some DiffClass.changed ∧
    some DiffClass.changed ≠ some DiffClass.unchanged := by
  constructor
  · rfl
  · decide

/-- C2 (amended): classification is new-row exactly when the comparison
table has no row at the primary index (in particular for any index past
its last row); otherwise it is changed exactly when String of the primary
value differs from String of the comparison value with null/absent on the
comparison side coalesced to the empty string, and unchanged otherwise.
Since a null primary value stringifies to the string null, a null paired
with a comparison null classifies as changed, not unchanged. -/
theorem getCellClass_spec (cs : Sheet) (i : ℕ) (c : String) (v : Option Value) :
    (cs.data[i]? = none → getCellClass (some cs) i c v = some DiffClass.newRow) ∧
    (∀ r, cs.data[i]? = some r →
      getCellClass (some cs) i c v =
        (if jsStringOpt v ≠ cmpString (r.getVal c) then some DiffClass.changed
         else some DiffClass.unchanged)) ∧
    (cs.data.length ≤ i → getCellClass (some cs) i c v = some DiffClass.newRow) := by
  refine ⟨?_, ?_, ?_⟩
  · intro h
    simp only [getCellClass]
    rw [h]
  · intro r h
    simp only [getCellClass]
    rw [h]
  · intro h
    simp only [getCellClass]
    rw [List.getElem?_eq_none h]

/-- C2 amended-claim witness: index 5 is past the single row of the
comparison sheet, so every column classifies new-row; and at index 0 the
primary string 1 differs from the comparison (null, coalesced to empty),
so the cell classifies changed. -/
theorem getCellClass_spec_witness :
    getCellClass (some sheetNull) 5 "A" (some (Value.str "1")) = some DiffClass.newRow ∧
    getCellClass (some sheetNull) 0 "A" (some (Value.str "1")) = some DiffClass.changed := by
  constructor
  · exact (getCellClass_spec sheetNull 5 "A" (some (Value.str "1"))).2.2 (by decide)
  · rw [(getCellClass_spec sheetNull 0 "A" (some (Value.str "1"))).2.1
      [("A", Value.null)] (by rfl)]
    decide

/-! ## C3: edit commit and cancel -/

/-- C3: while an edit session on (r, column c) is open, Enter and blur
both invoke the host callback exactly once, with that row index, that
column name and the draft text exactly as stored, and close the session;
Escape closes the session and invokes nothing. -/
theorem commit_and_cancel_edit (sheet : Sheet) (s : GridState) (r : ℤ) (c : String)
    (h : s.editingCell = some ⟨r, some c⟩) :
    (stepGrid sheet (GridEvent.key Key.enter) s).2 = [(r, some c, s.editValue)] ∧
    (stepGrid sheet (GridEvent.key Key.enter) s).1.editingCell = none ∧
    (stepGrid sheet GridEvent.blurInput s).2 = [(r, some c, s.editValue)] ∧
    (stepGrid sheet GridEvent.blurInput s).1.editingCell = none ∧
    (stepGrid sheet (GridEvent.key Key.escape) s).2 = [] ∧
    (stepGrid sheet (GridEvent.key Key.escape) s).1.editingCell = none := by
  have hsave : saveEdit sheet s =
      (if jsIndexOf sheet.columns (some c) = -1 then { s with editingCell := none }
       else { s with editingCell := none,
                     selectedCell := some ⟨r, jsIndexOf sheet.columns (some c)⟩ },
       [(r, some c, s.editValue)]) := by
    unfold saveEdit
    rw [h]
  constructor
  · simp [stepGrid, handleKeyDown, h, hsave]
  constructor
  · simp only [stepGrid, handleKeyDown, h, hsave]
    split <;> rfl
  constructor
  · simp [stepGrid, hsave]
  constructor
  · simp only [stepGrid, hsave]
    split <;> rfl
  constructor
  · simp [stepGrid, handleKeyDown, h]
  · simp [stepGrid, handleKeyDown, h]

/-- C3 witness: committing the draft 42 on cell (0, A) of the concrete
sheet emits exactly one callback carrying the untouched text 42. -/
theorem commit_and_cancel_edit_witness :
    (stepGrid sheetA (GridEvent.key Key.enter) stEditing).2 = [(0, some "A", "42")] ∧
    (stepGrid sheetA (GridEvent.key Key.enter) stEditing).1.editingCell = none ∧
    (stepGrid sheetA GridEvent.blurInput stEditing).2 = [(0, some "A", "42")] ∧
    (stepGrid sheetA GridEvent.blurInput stEditing).1.editingCell = none ∧
    (stepGrid sheetA (GridEvent.key Key.escape) stEditing).2 = [] ∧
    (stepGrid sheetA (GridEvent.key Key.escape) stEditing).1.editingCell = none :=
  commit_and_cancel_edit sheetA stEditing 0 "A" rfl

/-! ## C4: interactive resize clamping -/

/-- C4 counterexample: the resize step only clamps from below at 50, not
to [60, 800]. At zoom 100, base width 150, a drag delta of +700 screen
pixels yields width 850 (above 800), and a delta of -100 yields width 50
(below 60). -/
theorem resize_clamp_claim_false :
    resizeColumn 100 150 700 = 850 ∧
    ¬ resizeColumn 100 150 700 ≤ 800 ∧
    resizeColumn 100 150 (-100) = 50 ∧
    ¬ (60 : ℚ) ≤ resizeColumn 100 150 (-100) := by
  have h1 : resizeColumn 100 150 700 = 850 := by
    unfold resizeColumn
    rw [show (150 : ℚ) + 700 * (100 / 100) = 850 by norm_num]
    exact max_eq_right (by norm_num)
  have h2 : resizeColumn 100 150 (-100) = 50 := by
    unfold resizeColumn
    rw [show (150 : ℚ) + (-100) * (100 / 100) = 50 by norm_num]
    exact max_eq_right (by norm_num)
  refine ⟨h1, by rw [h1]; norm_num, h2, by rw [h2]; norm_num⟩

/-- C4 (amended): an interactive resize step sets the new base width to
max(50, old + delta * 100 / zoom): the result is never below 50, and it
equals the unclamped old + delta * 100 / zoom whenever that quantity is at
least 50; there is no upper clamp on this path. -/
theorem resizeColumn_spec (zoomLevel startWidth deltaPixels : ℚ) :
    50 ≤ resizeColumn zoomLevel startWidth deltaPixels ∧
    (50 ≤ startWidth + deltaPixels * (100 / zoomLevel) →
      resizeColumn zoomLevel startWidth deltaPixels
        = startWidth + deltaPixels * (100 / zoomLevel)) :=
  ⟨le_max_left _ _, fun h => max_eq_right h⟩

/-- C4 amended-claim witness: at zoom 100, width 150 and delta +10 the
result is the unclamped 160 and respects the lower bound 50. -/
theorem resizeColumn_spec_witness :
    50 ≤ resizeColumn 100 150 10 ∧ resizeColumn 100 150 10 = 160 := by
  refine ⟨(resizeColumn_spec 100 150 10).1, ?_⟩
  rw [(resizeColumn_spec 100 150 10).2 (by norm_num)]
  norm_num

/-! ## C5: Tab and Shift+Tab navigation -/

/-- C5: Shift+Tab moves one column backward keeping the row whenever the
backward target is not the first column; when the backward move lands at
the first-column boundary (starting column index at most 1) and the row is
positive it instead moves to the previous row last column; at the table
first row the row never changes (no wraparound); Tab never changes the
row, and at the last column it leaves the selection entirely unchanged. -/
theorem tab_navigation_spec (nCols : ℤ) (sel : Sel) :
    (2 ≤ sel.colIdx → shiftTabMove nCols sel = ⟨sel.row, sel.colIdx - 1⟩) ∧
    (sel.colIdx ≤ 1 → 0 < sel.row → shiftTabMove nCols sel = ⟨sel.row - 1, nCols - 1⟩) ∧
    (sel.row = 0 → (shiftTabMove nCols sel).row = 0) ∧
    ((tabMove nCols sel).row = sel.row) ∧
    (sel.colIdx = nCols - 1 → tabMove nCols sel = sel) := by
  refine ⟨?_, ?_, ?_, rfl, ?_⟩
  · intro h
    simp only [shiftTabMove]
    rw [if_neg (by omega)]
    rw [show max 0 (sel.colIdx - 1) = sel.colIdx - 1 by omega]
  · intro h1 h2
    simp only [shiftTabMove]
    rw [if_pos (by omega)]
  · intro h
    simp only [shiftTabMove]
    rw [if_neg (by omega)]
    exact h
  · intro h
    simp only [tabMove]
    rw [show min (nCols - 1) (sel.colIdx + 1) = sel.colIdx by omega]

/-- C5 witness: in a 3-column table, Shift+Tab from (row 1, column 1)
wraps to the previous row last column (0, 2), and Tab at the last column
(1, 2) leaves the selection unchanged. -/
theorem tab_navigation_spec_witness :
    shiftTabMove 3 ⟨1, 1⟩ = ⟨0, 2⟩ ∧ tabMove 3 ⟨1, 2⟩ = ⟨1, 2⟩ := by
  constructor
  · exact (tab_navigation_spec 3 ⟨1, 1⟩).2.1 (by decide) (by decide)
  · exact (tab_navigation_spec 3 ⟨1, 2⟩).2.2.2.2 (by decide)

/-! ## C6: state reset on table identity change -/

/-- C6: after the reset effect that runs on a table identity change, every
column of the new column list has the default base width 150, any width for
a column not in the new list is gone, the selection is cleared (Idle), and
the edit session is cleared, whatever the prior state was. -/
theorem reset_on_sheet_change (sheet : Sheet) (s : GridState) (c : String) :
    lookupWidth (resetForSheet sheet s).colWidths c
      = (if c ∈ sheet.columns then some (150 : ℚ) else none) ∧
    (resetForSheet sheet s).selectedCell = none ∧
    (resetForSheet sheet s).editingCell = none := by
  refine ⟨?_, rfl, rfl⟩
  simp only [resetForSheet]
  exact lookupWidth_map_const sheet.columns 150 c

/-! ## C7: resize round trip -/

/-- C7: resizing by +delta and then by -delta at the same zoom returns the
base width to its original value, provided neither step engages the
lower clamp (both the original width and the intermediate width are at
least the clamp floor 50). -/
theorem resize_roundtrip (zoomLevel startWidth deltaPixels : ℚ)
    (h1 : 50 ≤ startWidth)
    (h2 : 50 ≤ startWidth + deltaPixels * (100 / zoomLevel)) :
    resizeColumn zoomLevel (resizeColumn zoomLevel startWidth deltaPixels) (-deltaPixels)
      = startWidth := by
  unfold resizeColumn
  rw [max_eq_right h2]
  rw [show startWidth + deltaPixels * (100 / zoomLevel) + -deltaPixels * (100 / zoomLevel)
      = startWidth by ring]
  exact max_eq_right h1

/-- C7 witness: at zoom 100 and width 150, dragging +30 then -30 returns
the width to 150. -/
theorem resize_roundtrip_witness :
    resizeColumn 100 (resizeColumn 100 150 30) (-30) = 150 :=
  resize_roundtrip 100 150 30 (by norm_num) (by norm_num)

/-! ## C8: auto-fit degrades to a no-op without text measurement -/

/-- C8: when the text-measurement context cannot be obtained (the injected
capability is none), performAutoSize returns the state untouched: no crash
and every column width unchanged, for any sheet, column selection and
prior state. -/
theorem autofit_noop_without_measurement (sheet : Sheet) (specificCol : Option String)
    (s : GridState) :
    performAutoSize none sheet specificCol s = s ∧
    (performAutoSize none sheet specificCol s).colWidths = s.colWidths :=
  ⟨rfl, rfl⟩

/-! ## C9: selection stays in bounds -/

/-- Characterisation of the selection bound check on an explicit pair. -/
theorem selStateOK_mk (sheet : Sheet) (r c : ℤ) :
    selStateOK sheet (some ⟨r, c⟩) = true ↔
      0 ≤ r ∧ r < (sheet.data.length : ℤ) ∧
      0 ≤ c ∧ c < (sheet.columns.length : ℤ) := by
  simp [selStateOK, and_assoc]

/-- Characterisation of the selection bound check on an abstract pair. -/
theorem selStateOK_some (sheet : Sheet) (sel : Sel) :
    selStateOK sheet (some sel) = true ↔
      0 ≤ sel.row ∧ sel.row < (sheet.data.length : ℤ) ∧
      0 ≤ sel.colIdx ∧ sel.colIdx < (sheet.columns.length : ℤ) := by
  simp [selStateOK, and_assoc]

/-- Characterisation of the edit-target bound check. -/
theorem editStateOK_some (sheet : Sheet) (ec : EditCell) :
    editStateOK sheet (some ec) = true ↔
      0 ≤ ec.row ∧ ec.row < (sheet.data.length : ℤ) := by
  simp [editStateOK]

/-- The invariant splits into its selection and edit components. -/
theorem inBounds_split (sheet : Sheet) (s : GridState) :
    inBounds sheet s = true ↔
      selStateOK sheet s.selectedCell = true ∧ editStateOK sheet s.editingCell = true := by
  simp [inBounds]

/-- A non-failing indexOf on the column list is a valid column index. -/
theorem jsIndexOf_bounds (l : List String) (x : Option String)
    (h : jsIndexOf l x ≠ -1) :
    0 ≤ jsIndexOf l x ∧ jsIndexOf l x < (l.length : ℤ) := by
  cases x with
  | none => exact absurd rfl h
  | some s =>
    rcases jsIndexOfStr_bounds l s with h1 | h2
    · exact absurd h1 h
    · exact h2

/-- Committing an edit preserves the in-bounds invariant: the re-selected
cell row comes from the in-bounds edit target and its column index from a
successful indexOf into the column list. -/
theorem saveEdit_inBounds (sheet : Sheet) (s : GridState)
    (hinv : inBounds sheet s = true) :
    inBounds sheet (saveEdit sheet s).1 = true := by
  rw [inBounds_split] at hinv
  obtain ⟨hsel, hedit⟩ := hinv
  cases hec : s.editingCell with
  | none =>
    rw [inBounds_split]
    simp only [saveEdit, hec]
    exact ⟨hsel, rfl⟩
  | some ec =>
    rw [hec, editStateOK_some] at hedit
    simp only [saveEdit, hec]
    by_cases hidx : jsIndexOf sheet.columns ec.col = -1
    · rw [if_pos hidx, inBounds_split]
      exact ⟨hsel, rfl⟩
    · rw [if_neg hidx, inBounds_split]
      constructor
      · show selStateOK sheet (some ⟨ec.row, jsIndexOf sheet.columns ec.col⟩) = true
        rw [selStateOK_mk]
        obtain ⟨hb1, hb2⟩ := jsIndexOf_bounds sheet.columns ec.col hidx
        exact ⟨hedit.1, hedit.2, hb1, hb2⟩
      · rfl

/-- Every key press preserves the in-bounds invariant. -/
theorem handleKeyDown_inBounds (sheet : Sheet) (k : Key) (s : GridState)
    (hinv : inBounds sheet s = true) :
    inBounds sheet (handleKeyDown sheet k s).1 = true := by
  have hsplit := (inBounds_split sheet s).1 hinv
  obtain ⟨hsel, hedit⟩ := hsplit
  cases hec : s.editingCell with
  | some ec =>
    cases k
    case enter =>
      simpa only [handleKeyDown, hec] using saveEdit_inBounds sheet s hinv
    case escape =>
      simp only [handleKeyDown, hec]
      rw [inBounds_split]
      exact ⟨hsel, rfl⟩
    all_goals simp only [handleKeyDown, hec]
    all_goals exact hinv
  | none =>
    cases hsc : s.selectedCell with
    | none =>
      cases k <;> simp only [handleKeyDown, hec, hsc] <;> exact hinv
    | some sel =>
      rw [hsc, selStateOK_some] at hsel
      obtain ⟨h1, h2, h3, h4⟩ := hsel
      cases k
      case arrowUp =>
        simp [handleKeyDown, hec, hsc, inBounds, selStateOK, editStateOK]
        omega
      case arrowDown =>
        simp [handleKeyDown, hec, hsc, inBounds, selStateOK, editStateOK]
        omega
      case arrowRight =>
        simp [handleKeyDown, hec, hsc, inBounds, selStateOK, editStateOK]
        omega
      case arrowLeft =>
        simp [handleKeyDown, hec, hsc, inBounds, selStateOK, editStateOK]
        omega
      case tab shift =>
        cases shift
        case false =>
          simp [handleKeyDown, hec, hsc, tabMove, inBounds, selStateOK, editStateOK]
          omega
        case true =>
          by_cases hcond : max 0 (sel.colIdx - 1) = 0 ∧ sel.row > 0
          · simp only [handleKeyDown, hec, hsc, shiftTabMove]
            rw [if_pos hcond]
            simp [inBounds, selStateOK, editStateOK, hec]
            omega
          · simp only [handleKeyDown, hec, hsc, shiftTabMove]
            rw [if_neg hcond]
            simp [inBounds, selStateOK, editStateOK, hec]
            omega
      case enter =>
        simp [handleKeyDown, hec, hsc, startEditing, inBounds, selStateOK, editStateOK]
        omega
      case escape =>
        simp only [handleKeyDown, hec, hsc]
        exact hinv
      case other =>
        simp only [handleKeyDown, hec, hsc]
        exact hinv

/-- C9: on a non-empty table, every grid event whose pointer coordinates
target a rendered cell preserves the invariant that the selected cell (and
any edit target) is within the table bounds: no reachable event sequence
produces an out-of-range selection. -/
theorem navigation_stays_in_bounds (sheet : Sheet) (e : GridEvent) (s : GridState)
    (_hne : 0 < sheet.data.length)
    (hwf : eventWF sheet e = true)
    (hinv : inBounds sheet s = true) :
    inBounds sheet (stepGrid sheet e s).1 = true := by
  cases e with
  | key k =>
    simpa only [stepGrid] using handleKeyDown_inBounds sheet k s hinv
  | click r c =>
    rw [inBounds_split] at hinv
    simp only [eventWF, Bool.and_eq_true, decide_eq_true_eq] at hwf
    obtain ⟨⟨⟨w1, w2⟩, w3⟩, w4⟩ := hwf
    rw [inBounds_split]
    constructor
    · show selStateOK sheet (some ⟨r, c⟩) = true
      rw [selStateOK_mk]
      exact ⟨w1, w2, w3, w4⟩
    · show editStateOK sheet s.editingCell = true
      exact hinv.2
  | dblclick r c =>
    rw [inBounds_split] at hinv
    simp only [eventWF, Bool.and_eq_true, decide_eq_true_eq] at hwf
    rw [inBounds_split]
    constructor
    · show selStateOK sheet s.selectedCell = true
      exact hinv.1
    · show editStateOK sheet (some ⟨r, some c⟩) = true
      rw [editStateOK_some]
      exact ⟨hwf.1, hwf.2⟩
  | blurInput =>
    simpa only [stepGrid] using saveEdit_inBounds sheet s hinv
  | inputChange t =>
    rw [inBounds_split] at hinv
    rw [inBounds_split]
    constructor
    · show selStateOK sheet s.selectedCell = true
      exact hinv.1
    · show editStateOK sheet s.editingCell = true
      exact hinv.2

/-- C9 witness: on the concrete two-row sheet, pressing Shift+Tab from the
in-bounds state selecting (0, 0) yields an in-bounds state. -/
theorem navigation_stays_in_bounds_witness :
    inBounds sheetA (stepGrid sheetA (GridEvent.key (Key.tab true)) stSelected).1 = true :=
  navigation_stays_in_bounds sheetA (GridEvent.key (Key.tab true)) stSelected
    (by decide) (by decide) (by decide)


/-! ## C10: the host edit handler is frame-preserving -/

/-- The keys filtered out of a spread-update never match the written key. -/
theorem find?_filter_same_none (row : Row) (c : String) :
    List.find? (fun p => p.1 == c) (List.filter (fun p => !(p.1 == c)) row) = none := by
  rw [List.find?_eq_none]
  intro x hx
  have hmem := List.of_mem_filter hx
  simpa using hmem

/-- Filtering out the written key does not disturb lookup of another key. -/
theorem find?_filter_other (row : Row) (c d : String) (h : d ≠ c) :
    List.find? (fun p => p.1 == d) (List.filter (fun p => !(p.1 == c)) row)
      = List.find? (fun p => p.1 == d) row := by
  induction row with
  | nil => rfl
  | cons a rest ih =>
    by_cases hac : a.1 = c
    · have had : (a.1 == d) = false := by simp [hac, Ne.symm h]
      rw [List.filter_cons_of_neg (by simp [hac]), ih]
      simp only [List.find?_cons, had]
    · rw [List.filter_cons_of_pos (by simp [hac])]
      by_cases had : a.1 = d
      · have had2 : (a.1 == d) = true := by simp [had]
        simp only [List.find?_cons, had2]
      · have had2 : (a.1 == d) = false := by simp [had]
        simp only [List.find?_cons, had2]
        exact ih

/-- Looking up the written key after a spread-update yields the new value. -/
theorem getVal_setCellInRow_same (row : Row) (c : String) (v : Value) :
    Row.getVal (setCellInRow row c v) c = some v := by
  unfold setCellInRow Row.getVal
  rw [List.find?_append, find?_filter_same_none]
  simp

/-- Looking up any other key after a spread-update is unchanged. -/
theorem getVal_setCellInRow_other (row : Row) (c d : String) (v : Value) (h : d ≠ c) :
    Row.getVal (setCellInRow row c v) d = Row.getVal row d := by
  unfold setCellInRow Row.getVal
  rw [List.find?_append, find?_filter_other row c d h]
  cases hf : List.find? (fun p => p.1 == d) row with
  | some x => rfl
  | none =>
    simp [Option.or, Ne.symm h]

/-- updateRowAt keeps the length when the index is in range. -/
theorem updateRowAt_length (data : List Row) (i : ℕ) (c : String) (v : Value)
    (h : i < data.length) :
    (updateRowAt data i c v).length = data.length := by
  simp [updateRowAt, h]

/-- updateRowAt leaves every originally existing row at another index
untouched. -/
theorem updateRowAt_other (data : List Row) (i k : ℕ) (c : String) (v : Value)
    (hk : k ≠ i) (hklen : k < data.length) :
    (updateRowAt data i c v)[k]? = data[k]? := by
  unfold updateRowAt
  by_cases h : i < data.length
  · rw [if_pos h]
    exact List.getElem?_set_ne (fun hh => hk hh.symm)
  · rw [if_neg h, List.append_assoc, List.getElem?_append_left hklen]

/-- updateRowAt replaces the targeted in-range row by its spread-update. -/
theorem updateRowAt_at (data : List Row) (i : ℕ) (c : String) (v : Value) (r : Row)
    (h : data[i]? = some r) :
    (updateRowAt data i c v)[i]? = some (setCellInRow r c v) := by
  have hi : i < data.length := by
    by_contra hnot
    rw [List.getElem?_eq_none (by omega)] at h
    exact Option.noConfusion h
  unfold updateRowAt
  rw [if_pos hi, List.getElem?_set_eq_of_lt _ (by simpa using hi)]
  rw [h]
  rfl

/-- C10: the host edit handler touches nothing but the addressed cell.
Every sheet whose id differs from the active id is returned unchanged
(identically); the sheet with the active id keeps its id, name, column
list and type; every row other than the addressed one is unchanged; the
row count is unchanged when the row index is in range; and in the
addressed row the addressed column now holds the committed text while
every other column keeps its value. -/
theorem handleCellEdit_frame (aid : String) (sheets : List Sheet)
    (i : ℕ) (c : String) (v : String) :
    (handleCellEdit (some aid) sheets i c v).length = sheets.length ∧
    (∀ (j : ℕ) (sh : Sheet), sheets[j]? = some sh → sh.id ≠ aid →
      (handleCellEdit (some aid) sheets i c v)[j]? = some sh) ∧
    (∀ (j : ℕ) (sh : Sheet), sheets[j]? = some sh → sh.id = aid →
      ∃ e : Sheet, (handleCellEdit (some aid) sheets i c v)[j]? = some e ∧
        e.id = sh.id ∧ e.name = sh.name ∧ e.columns = sh.columns ∧
        e.type = sh.type ∧
        (∀ k, k ≠ i → k < sh.data.length → e.data[k]? = sh.data[k]?) ∧
        (i < sh.data.length → e.data.length = sh.data.length) ∧
        (∀ r, sh.data[i]? = some r →
          e.data[i]? = some (setCellInRow r c (Value.str v)) ∧
          Row.getVal (setCellInRow r c (Value.str v)) c = some (Value.str v) ∧
          (∀ d, d ≠ c →
            Row.getVal (setCellInRow r c (Value.str v)) d = Row.getVal r d))) := by
  refine ⟨?_, ?_, ?_⟩
  · simp [handleCellEdit]
  · intro j sh hj hne
    simp [handleCellEdit, hj, hne]
  · intro j sh hj heq
    refine ⟨{ sh with data := updateRowAt sh.data i c (Value.str v) }, ?_, rfl, rfl, rfl, rfl,
      ?_, ?_, ?_⟩
    · simp [handleCellEdit, hj, heq]
    · intro k hk hklen
      exact updateRowAt_other sh.data i k c (Value.str v) hk hklen
    · intro hlen
      exact updateRowAt_length sh.data i c (Value.str v) hlen
    · intro r hr
      exact ⟨updateRowAt_at sh.data i c (Value.str v) r hr,
        getVal_setCellInRow_same r c (Value.str v),
        fun d hd => getVal_setCellInRow_other r c d (Value.str v) hd⟩

/-- C10 witness: editing cell (0, A) of the active sheet s1 to the text 9
leaves the unrelated sheet s2 untouched and rewrites exactly that cell. -/
theorem handleCellEdit_frame_witness :
    (handleCellEdit (some "s1") [sheetA, sheetNull] 0 "A" "9")[1]? = some sheetNull ∧
    (handleCellEdit (some "s1") [sheetA, sheetNull] 0 "A" "9").length = 2 := by
  constructor
  · exact (handleCellEdit_frame "s1" [sheetA, sheetNull] 0 "A" "9").2.1 1 sheetNull
      (by rfl) (by decide)
  · exact (handleCellEdit_frame "s1" [sheetA, sheetNull] 0 "A" "9").1
